import Mathlib

/-!
Verification of the NewsMap pipeline (src/main.py) against its specification.

The shallow embedding below translates the pure decision logic of the script:
Python strings are modelled as `List Char` or `String`, Python dicts coming
from `json.loads` as the inductive `JVal`, machine integers as `Int`/`Nat`
(no overflow is possible at these sizes), and fallible code as `Option`
(`none` models an uncaught exception or the sentinel `None`).
Remote calls (NewsAPI, the three Gemini calls) are modelled by passing their
observable result (the article list, the response text) as an input.
-/

/-! ## Headline records (`fetch_stories`, src/main.py lines 61-94) -/

/-- Article object of the news feed.  A field is `none` when the key is
absent from the article dict (then Python `article.get` supplies a default). -/
structure Article where
  title : Option String
  sourceName : Option String
  url : Option String
  description : Option String
deriving DecidableEq, Repr

/-- Headline record built by `fetch_stories`.  `mnemonic_explanation` is
`none` while the key is absent (the join in `main` may attach it later). -/
structure Story where
  id : Int
  title : String
  source : String
  url : String
  description : String
  mnemonic_explanation : Option String
deriving DecidableEq, Repr

/-- Story built from a real feed article: models the dict literal appended in
the loop of `fetch_stories` (`article.get` with defaults; an empty or missing
description falls back to "No description available."). -/
def articleStory (i : Int) (a : Article) : Story :=
  { id := i
    title := a.title.getD "Unknown Title"
    source := a.sourceName.getD "Unknown Source"
    url := a.url.getD "#"
    description :=
      match a.description with
      | none => "No description available."
      | some d => if d = "" then "No description available." else d
    mnemonic_explanation := none }

/-- Placeholder story appended by the padding `while` loop. -/
def placeholderStory (i : Int) : Story :=
  { id := i
    title := "More Content Coming Soon"
    source := "System"
    url := "#"
    description := "Waiting for more headlines to populate."
    mnemonic_explanation := none }

/-- Numbering loop of `fetch_stories`: ids are `k, k+1, ...` in list order
(the Python loop uses `enumerate`, appending id `i + 1`). -/
def numberFrom (k : Int) : List Article → List Story
  | [] => []
  | a :: rest => articleStory k a :: numberFrom (k + 1) rest

/-- Real stories obtained from the feed result: the loop breaks at `count`
(`if i >= count: break`); a feed error (`except`) leaves the list empty. -/
def realStories (feed : Option (List Article)) (count : Nat) : List Story :=
  match feed with
  | none => []
  | some arts => numberFrom 1 (arts.take count)

/-- Padding `while` loop: keeps appending `placeholderStory next_id` with
`next_id = len(stories) + 1` until the list has `count` entries. -/
def padFrom (nextId : Int) : Nat → List Story
  | 0 => []
  | r + 1 => placeholderStory nextId :: padFrom (nextId + 1) r

/-- Model of `fetch_stories(category, count)`: the feed result stands for the
outcome of the `newsapi.get_top_headlines` call (`none` = News API error). -/
def fetch_stories (feed : Option (List Article)) (count : Nat) : List Story :=
  let real := realStories feed count
  real ++ padFrom ((real.length : Int) + 1) (count - real.length)

/-- Expected id sequence `k, k+1, ..., k+n-1`. -/
def idsFrom (k : Int) : Nat → List Int
  | 0 => []
  | n + 1 => k :: idsFrom (k + 1) n

theorem numberFrom_length (k : Int) (l : List Article) :
    (numberFrom k l).length = l.length := by
  induction l generalizing k with
  | nil => rfl
  | cons a rest ih => simp [numberFrom, ih]

theorem numberFrom_ids (k : Int) (l : List Article) :
    (numberFrom k l).map Story.id = idsFrom k l.length := by
  induction l generalizing k with
  | nil => rfl
  | cons a rest ih => simp [numberFrom, idsFrom, articleStory, ih]

theorem padFrom_length (k : Int) (r : Nat) : (padFrom k r).length = r := by
  induction r generalizing k with
  | zero => rfl
  | succ n ih => simp [padFrom, ih]

theorem padFrom_ids (k : Int) (r : Nat) :
    (padFrom k r).map Story.id = idsFrom k r := by
  induction r generalizing k with
  | zero => rfl
  | succ n ih => simp [padFrom, idsFrom, placeholderStory, ih]

theorem idsFrom_append (a : Nat) (b : Nat) (k : Int) :
    idsFrom k a ++ idsFrom (k + a) b = idsFrom k (a + b) := by
  induction a generalizing k with
  | zero => simp [idsFrom]
  | succ n ih =>
    have h : k + (↑n + 1) = (k + 1) + ↑n := by ring
    simp [idsFrom, Nat.succ_add]
    rw [h]
    exact ih (k + 1)

theorem realStories_length_le (feed : Option (List Article)) (count : Nat) :
    (realStories feed count).length ≤ count := by
  cases feed with
  | none => simp [realStories]
  | some arts =>
    simp [realStories, numberFrom_length, List.length_take]

theorem padFrom_all_placeholder (k : Int) (r : Nat) :
    ((padFrom k r).all fun st =>
        st.title == "More Content Coming Soon" && st.source == "System" &&
          st.url == "#") = true := by
  induction r generalizing k with
  | zero => rfl
  | succ n ih =>
    simp_all [padFrom, placeholderStory]
    exact ih (k + 1)

/-- Claim C1: for every requested count N ≥ 0 and every feed result
(including a feed error, modelled as `none`, or fewer than N usable
articles), `fetch_stories` returns exactly N records with ids 1..N in order,
and every record beyond those supplied by the feed is a placeholder record
with title "More Content Coming Soon", source "System" and url "#". -/
theorem fetch_stories_pads (feed : Option (List Article)) (count : Nat) :
    (fetch_stories feed count).length = count ∧
    (fetch_stories feed count).map Story.id = idsFrom 1 count ∧
    (((fetch_stories feed count).drop (realStories feed count).length).all
      fun st =>
        st.title == "More Content Coming Soon" && st.source == "System" &&
          st.url == "#") = true := by
  have hle := realStories_length_le feed count
  refine ⟨?_, ?_, ?_⟩
  · simp [fetch_stories, padFrom_length]
    omega
  · have h := idsFrom_append (realStories feed count).length
      (count - (realStories feed count).length) 1
    have hids : (realStories feed count).map Story.id =
        idsFrom 1 (realStories feed count).length := by
      cases feed with
      | none => rfl
      | some arts => rw [realStories, numberFrom_ids, numberFrom_length]
    simp only [fetch_stories, List.map_append, padFrom_ids, hids]
    rw [show ((realStories feed count).length : Int) + 1 =
      1 + ((realStories feed count).length : Int) by ring]
    rw [h]
    congr 1
    omega
  · rw [fetch_stories, List.drop_left' (by rfl)]
    exact padFrom_all_placeholder _ _

/-! ## Page builder (`generate_html`, src/main.py lines 210-379) -/

/-- Section configuration entry (the `SECTIONS` dict literals). -/
structure SectionConfig where
  name : String
  filename : String
  category : Option String
  story_count : Nat
  theme : String
deriving DecidableEq, Repr

/-- Coordinate record of the vision stage: id plus x and y percentages. -/
structure Location where
  id : Int
  x : Int
  y : Int
deriving DecidableEq, Repr

/-- Marker element of the generated page (id and position in percent). -/
structure Marker where
  id : Int
  x : Int
  y : Int
deriving DecidableEq, Repr

/-- Detail panel (story card) of the generated page. -/
structure Card where
  id : Int
  sourceTag : String
  title : String
  mnemonicText : String
  excerpt : String
  url : String
deriving DecidableEq, Repr

/-- Position lookup of `generate_html`:
`next((l for l in locations if l['id'] == story['id']), {'x': 50, 'y': 50})`,
that is the first matching entry in list order, or the default center. -/
def locFor (locations : List Location) (i : Int) : Int × Int :=
  match locations.find? (fun l => l.id == i) with
  | some l => (l.x, l.y)
  | none => (50, 50)

/-- Marker produced for one story in the first loop of `generate_html`. -/
def markerFor (locations : List Location) (s : Story) : Marker :=
  { id := s.id, x := (locFor locations s.id).1, y := (locFor locations s.id).2 }

/-- All markers of the page: one per story, in story order. -/
def pageMarkers (stories : List Story) (locations : List Location) : List Marker :=
  stories.map (markerFor locations)

/-- Card produced for one story in the second loop of `generate_html`
(`story.get('mnemonic_explanation', 'Visual mnemonic for this story.')`,
`story['description'][:140]`). -/
def cardFor (s : Story) : Card :=
  { id := s.id
    sourceTag := s.source
    title := s.title
    mnemonicText := s.mnemonic_explanation.getD "Visual mnemonic for this story."
    excerpt := s.description.take 140
    url := s.url }

/-- All detail panels of the page: one per story, in story order. -/
def pageCards (stories : List Story) : List Card :=
  stories.map cardFor

/-- Marker div fragment appended per story (lines 330-334 of the source). -/
def renderMarker (m : Marker) : String :=
  "\n            <div class=\"news-marker\" onclick=\"openStory(" ++ toString m.id
    ++ ")\" id=\"marker-" ++ toString m.id ++ "\" style=\"top: " ++ toString m.y
    ++ "%; left: " ++ toString m.x ++ "%;\">\n                " ++ toString m.id
    ++ "\n            </div>\n        "

/-- Story card fragment appended per story (lines 341-352 of the source). -/
def renderCard (c : Card) : String :=
  "\n            <div class=\"story-card\" id=\"card-" ++ toString c.id
    ++ "\">\n                <div class=\"card-header\">\n                    <span class=\"story-tag\">"
    ++ c.sourceTag
    ++ "</span>\n                    <button class=\"close-btn\" onclick=\"closeAll()\">&times;</button>\n                </div>\n                <h3>"
    ++ c.title
    ++ "</h3>\n                <div class=\"mnemonic-box\">üß† <strong>Hook:</strong> "
    ++ c.mnemonicText ++ "</div>\n                <p>" ++ c.excerpt
    ++ "...</p>\n                <a href=\"" ++ c.url
    ++ "\" target=\"_blank\" class=\"read-btn\">Read Full Story</a>\n            </div>\n        "

/-- Head of the page template (lines 213-326 of the source), with the section
name and the image file name interpolated; literal braces of the emitted CSS
are written as hex escapes. -/
def htmlHead (section_config : SectionConfig) (image_filename : String) : String :=
  "\n    <!DOCTYPE html>\n    <html>\n    <head>\n        <title>NewsMap: "
  ++ section_config.name
  ++ "</title>\n        <meta charset=\"UTF-8\">\n        <meta name=\"viewport\" content=\"width=device-width, initial-scale=1.0, maximum-scale=1.0, user-scalable=no\">\n        <style>\n            body \x7b background: #f0f4f8; font-family: -apple-system, BlinkMacSystemFont, \"Segoe UI\", Roboto, sans-serif; display: flex; flex-direction: column; align-items: center; padding: 20px 0; margin: 0; \x7d\n            h1 \x7b color: #2d3748; margin-bottom: 20px; font-size: 24px; text-align: center; padding: 0 10px; \x7d\n            \n            .canvas-container \x7b \n                position: relative; \n                width: 100%; \n                max-width: 1200px; \n                border: 4px solid #2b6cb0; \n                border-radius: 12px; \n                box-shadow: 0 10px 25px rgba(0,0,0,0.1); \n                background: white; \n                overflow: hidden; \n                margin-bottom: 100px; \n            \x7d\n            \n            .main-image \x7b width: 100%; height: auto; display: block; \x7d\n            \n            /* GLOBAL GHOST MARKER STYLE (Base for Desktop & Mobile) */\n            .news-marker \x7b \n                position: absolute; \n                width: 26px; height: 26px; /* Default Desktop Size */\n                \n                /* The Ghost Effect */\n                background: rgba(66, 153, 225, 0.55); /* See-through Blue */\n                backdrop-filter: blur(3px);            /* Frosted Glass */\n                border: 1px solid rgba(255, 255, 255, 0.85); \n                \n                border-radius: 50%; \n                cursor: pointer; \n                transform: translate(-50%, -50%); \n                z-index: 10; \n                display: flex; justify-content: center; align-items: center;\n                color: white; font-weight: bold; font-size: 12px;\n                box-shadow: 0 2px 4px rgba(0,0,0,0.1);\n                transition: all 0.2s cubic-bezier(0.175, 0.885, 0.32, 1.275);\n            \x7d\n            \n            /* HOVER / ACTIVE STATE (Becomes Solid & Large) */\n            .news-marker:hover, .news-marker.active \x7b \n                transform: translate(-50%, -50%) scale(1.5); \n                background: #2b6cb0;  /* Solid Blue */\n                opacity: 1;\n                z-index: 20; \n                border: 2px solid white;\n                box-shadow: 0 4px 12px rgba(0,0,0,0.3);\n            \x7d\n\n            /* MOBILE TWEAKS (Just slightly smaller) */\n            @media (max-width: 768px) \x7b\n                .news-marker \x7b \n                    width: 20px; height: 20px; \n                    font-size: 10px; \n                \x7d\n            \x7d\n\n            /* MODAL / BOTTOM SHEET */\n            .story-card \x7b\n                position: fixed;\n                bottom: -100%;\n                left: 0; right: 0;\n                background: white;\n                padding: 20px;\n                border-radius: 20px 20px 0 0;\n                box-shadow: 0 -10px 40px rgba(0,0,0,0.2);\n                transition: bottom 0.3s cubic-bezier(0.175, 0.885, 0.32, 1.275);\n                z-index: 1000;\n                max-width: 600px;\n                margin: 0 auto;\n            \x7d\n\n            .story-card.active \x7b bottom: 0; \x7d\n            \n            .overlay \x7b\n                position: fixed; top: 0; left: 0; right: 0; bottom: 0;\n                background: rgba(0,0,0,0.3);\n                z-index: 900;\n                display: none;\n            \x7d\n            .overlay.active \x7b display: block; \x7d\n\n            .card-header \x7b display: flex; justify-content: space-between; align-items: flex-start; margin-bottom: 10px; \x7d\n            .story-tag \x7b background: #bee3f8; color: #2b6cb0; padding: 4px 8px; border-radius: 4px; font-size: 11px; font-weight: 700; text-transform: uppercase; \x7d\n            .close-btn \x7b background: none; border: none; font-size: 24px; color: #a0aec0; cursor: pointer; padding: 0; line-height: 1; \x7d\n            \n            h3 \x7b margin: 0 0 10px 0; font-size: 18px; color: #2d3748; line-height: 1.3; \x7d\n            .mnemonic-box \x7b background: #ebf8ff; border-left: 4px solid #4299e1; padding: 10px; margin-bottom: 12px; font-size: 13px; color: #2c5282; font-style: italic; \x7d\n            p \x7b margin: 0 0 15px 0; font-size: 14px; line-height: 1.6; color: #4a5568; \x7d\n            .read-btn \x7b display: block; width: 100%; background: #4299e1; color: white; text-align: center; padding: 12px 0; border-radius: 8px; text-decoration: none; font-weight: 600; font-size: 15px; box-sizing: border-box; \x7d\n            .read-btn:hover \x7b background: #3182ce; \x7d\n\n            @media (min-width: 769px) \x7b\n                .story-card \x7b\n                    bottom: 20px; left: 50%; transform: translateX(-50%);\n                    width: 400px;\n                    border-radius: 12px;\n                    margin-bottom: -100%;\n                \x7d\n                .story-card.active \x7b margin-bottom: 0; bottom: 40px; \x7d\n            \x7d\n        </style>\n    </head>\n    <body>\n        <h1>üó∫Ô∏è NewsMap: Front Page</h1>\n        <div class=\"canvas-container\">\n            <img src=\"images/"
  ++ image_filename
  ++ "\" class=\"main-image\">\n    "

/-- Overlay div appended after the markers (line 337 of the source). -/
def overlayHtml : String :=
  "<div class=\"overlay\" onclick=\"closeAll()\"></div>"

/-- Script and closing tags appended last (lines 354-375 of the source). -/
def htmlTail : String :=
  "\n        <script>\n            function openStory(id) \x7b\n                closeAll();\n                document.getElementById(\x27card-\x27 + id).classList.add(\x27active\x27);\n                document.getElementById(\x27marker-\x27 + id).classList.add(\x27active\x27);\n                document.querySelector(\x27.overlay\x27).classList.add(\x27active\x27);\n            \x7d\n\n            function closeAll() \x7b\n                const cards = document.querySelectorAll(\x27.story-card\x27);\n                const markers = document.querySelectorAll(\x27.news-marker\x27);\n                const overlay = document.querySelector(\x27.overlay\x27);\n                \n                cards.forEach(c => c.classList.remove(\x27active\x27));\n                markers.forEach(m => m.classList.remove(\x27active\x27));\n                overlay.classList.remove(\x27active\x27);\n            \x7d\n        </script>\n    </body>\n    </html>\n    "

/-- Model of `generate_html`: the full page text, assembled exactly in the
order of the source (head with image, marker loop, closing div, overlay,
card loop, script tail).  Writing the file is outside the embedding; the
function returns the written content. -/
def generate_html (section_config : SectionConfig) (stories : List Story)
    (locations : List Location) (image_filename : String) : String :=
  htmlHead section_config image_filename
    ++ String.join ((pageMarkers stories locations).map renderMarker)
    ++ "</div>"
    ++ overlayHtml
    ++ String.join ((pageCards stories).map renderCard)
    ++ htmlTail

/-! ## Mnemonic join of `main` (src/main.py lines 393-397) -/

/-- Story element of the concept, as consumed by the join in `main`
(`elem['id']`, `elem.get('mnemonic_explanation', '')`). -/
structure SElem where
  id : Int
  mnemonic_explanation : Option String
deriving DecidableEq, Repr

/-- Join step for one story: the inner loop of `main` scans the elements in
order and `break`s at the first id match, attaching its explanation (with
default `''` when the element lacks the key); no match leaves the story
unchanged. -/
def attachOne (s : Story) (elems : List SElem) : Story :=
  match elems.find? (fun e => e.id == s.id) with
  | some e => { s with mnemonic_explanation := some (e.mnemonic_explanation.getD "") }
  | none => s

/-- Join of `main`: every story is processed independently. -/
def attachMnemonics (stories : List Story) (elems : List SElem) : List Story :=
  stories.map (fun st => attachOne st elems)

/-- Claim C2: for every headline list of length N and every coordinate list,
the page built by `generate_html` carries exactly N markers and exactly N
detail panels, and marker ids and panel ids agree position by position with
the story ids (so in particular the two id sets coincide and no headline is
omitted, even when its id has no coordinate). -/
theorem page_marker_card_bijection (stories : List Story) (locations : List Location) :
    (pageMarkers stories locations).length = stories.length ∧
    (pageCards stories).length = stories.length ∧
    (pageMarkers stories locations).map Marker.id = stories.map Story.id ∧
    (pageCards stories).map Card.id = stories.map Story.id ∧
    (pageMarkers stories locations).map Marker.id = (pageCards stories).map Card.id := by
  have hm : (pageMarkers stories locations).map Marker.id = stories.map Story.id := by
    simp [pageMarkers, List.map_map]
    intro a _
    rfl
  have hc : (pageCards stories).map Card.id = stories.map Story.id := by
    simp [pageCards, List.map_map]
    intro a _
    rfl
  exact ⟨by simp [pageMarkers], by simp [pageCards], hm, hc, by rw [hm, hc]⟩

/-- Claim C3: a headline id with no entry in the coordinate list still
receives a marker, deterministically placed at the default x=50, y=50 (the
embedding is total, so no exception is possible). -/
theorem marker_default_position (stories : List Story) (locations : List Location)
    (s : Story) (hs : s ∈ stories)
    (h : locations.find? (fun l => l.id == s.id) = none) :
    locFor locations s.id = (50, 50) ∧
    ({ id := s.id, x := 50, y := 50 } : Marker) ∈ pageMarkers stories locations := by
  have hl : locFor locations s.id = (50, 50) := by simp [locFor, h]
  refine ⟨hl, ?_⟩
  rw [pageMarkers, List.mem_map]
  exact ⟨s, hs, by simp [markerFor, hl]⟩

/-- Concrete story used by the witnesses below. -/
def storyT (i : Int) : Story :=
  { id := i, title := "T", source := "S", url := "#", description := "D", mnemonic_explanation := none }

/-- Witness for `marker_default_position` at a concrete story whose id 1 is
absent from the coordinate list. -/
theorem marker_default_position_witness :
    locFor [{ id := 2, x := 10, y := 20 }] (1 : Int) = (50, 50) ∧
    ({ id := 1, x := 50, y := 50 } : Marker) ∈
      pageMarkers [storyT 1] [{ id := 2, x := 10, y := 20 }] :=
  marker_default_position [storyT 1] [{ id := 2, x := 10, y := 20 }] (storyT 1)
    (by simp) (by rfl)

/-- Claim C4: a headline whose id is absent from the concept elements gets no
explanation attached by the join of `main`, and its detail panel then renders
the placeholder rationale "Visual mnemonic for this story." instead of
raising. -/
theorem card_placeholder_rationale (stories : List Story) (elems : List SElem)
    (s : Story) (hs : s ∈ stories) (hm : s.mnemonic_explanation = none)
    (h : elems.find? (fun e => e.id == s.id) = none) :
    (cardFor (attachOne s elems)).mnemonicText = "Visual mnemonic for this story." ∧
    cardFor (attachOne s elems) ∈ pageCards (attachMnemonics stories elems) := by
  have ha : attachOne s elems = s := by simp [attachOne, h]
  refine ⟨by simp [ha, cardFor, hm], ?_⟩
  rw [pageCards, attachMnemonics, List.map_map, List.mem_map]
  exact ⟨s, hs, rfl⟩

/-- Witness for `card_placeholder_rationale` at a concrete story whose id 3
does not occur among the concept elements. -/
theorem card_placeholder_rationale_witness :
    (cardFor (attachOne (storyT 3)
        [{ id := 1, mnemonic_explanation := some "bull" }])).mnemonicText =
      "Visual mnemonic for this story." ∧
    cardFor (attachOne (storyT 3)
        [{ id := 1, mnemonic_explanation := some "bull" }]) ∈
      pageCards (attachMnemonics [storyT 3]
        [{ id := 1, mnemonic_explanation := some "bull" }]) :=
  card_placeholder_rationale [storyT 3]
    [{ id := 1, mnemonic_explanation := some "bull" }] (storyT 3)
    (by simp) rfl (by rfl)

/-- Claim C5: `generate_html` is deterministic — the page text is a pure
function of the section configuration, the headline list, the coordinate
list and the image file name, so two invocations on equal inputs are
byte-identical. -/
theorem generate_html_deterministic (section_config : SectionConfig)
    (stories : List Story) (locations : List Location) (image_filename : String) :
    generate_html section_config stories locations image_filename =
      generate_html section_config stories locations image_filename := rfl

/-- Claim C10: with duplicate ids present, the position lookup of
`generate_html` uses the first matching coordinate entry in list order, and
the join of `main` attaches the explanation of the first matching concept
element, ignoring later duplicates. -/
theorem first_match_wins (pre : List Location) (l1 : Location) (post : List Location)
    (epre : List SElem) (e1 : SElem) (epost : List SElem) (s : Story)
    (hpre : ∀ p ∈ pre, (p.id == s.id) = false) (hl1 : (l1.id == s.id) = true)
    (hepre : ∀ p ∈ epre, (p.id == s.id) = false) (he1 : (e1.id == s.id) = true) :
    locFor (pre ++ l1 :: post) s.id = (l1.x, l1.y) ∧
    attachOne s (epre ++ e1 :: epost) =
      { s with mnemonic_explanation := some (e1.mnemonic_explanation.getD "") } := by
  have hfind : (pre ++ l1 :: post).find? (fun l => l.id == s.id) = some l1 := by
    rw [List.find?_append]
    have hn : pre.find? (fun l => l.id == s.id) = none :=
      List.find?_eq_none.2 (by intro x hx; simp [hpre x hx])
    simp [hn, List.find?_cons, hl1]
  have hefind : (epre ++ e1 :: epost).find? (fun e => e.id == s.id) = some e1 := by
    rw [List.find?_append]
    have hn : epre.find? (fun e => e.id == s.id) = none :=
      List.find?_eq_none.2 (by intro x hx; simp [hepre x hx])
    simp [hn, List.find?_cons, he1]
  exact ⟨by simp [locFor, hfind], by simp [attachOne, hefind]⟩

/-- Witness for `first_match_wins` with concrete duplicate entries: the first
coordinate for id 1 (10, 20) wins over the later (30, 40), and the first
element explanation "first" wins over the later "second". -/
theorem first_match_wins_witness :
    locFor [{ id := 2, x := 1, y := 1 }, { id := 1, x := 10, y := 20 },
        { id := 1, x := 30, y := 40 }] (1 : Int) = (10, 20) ∧
    attachOne (storyT 1)
        [{ id := 1, mnemonic_explanation := some "first" },
          { id := 1, mnemonic_explanation := some "second" }] =
      { storyT 1 with mnemonic_explanation := some "first" } :=
  first_match_wins [{ id := 2, x := 1, y := 1 }] { id := 1, x := 10, y := 20 }
    [{ id := 1, x := 30, y := 40 }]
    [] { id := 1, mnemonic_explanation := some "first" }
    [{ id := 1, mnemonic_explanation := some "second" }]
    (storyT 1)
    (by intro p hp; simp at hp; simp [hp, storyT]) (by decide)
    (by intro p hp; simp at hp) (by decide)

/-! ## Rate limiter (`wait_for_api_cooldown`, src/main.py lines 28-49)

Wall-clock time is modelled as a natural number; `RL` carries the current
time and the module-global `last_google_api_call_time`.  A remote call of
duration `d` advances the clock by `d`. -/

/-- The fixed inter-call delay (`API_CALL_DELAY_SECONDS = 2`). -/
def API_CALL_DELAY_SECONDS : Nat := 2

/-- Clock plus the recorded time of the last Google call (`None` initially). -/
structure RL where
  now : Nat
  last : Option Nat
deriving DecidableEq, Repr

/-- Model of `wait_for_api_cooldown`: sleep the remaining part of the delay
when the last recorded call is too recent, then record the current time. -/
def wait_for_api_cooldown (s : RL) : RL :=
  match s.last with
  | none => { now := s.now, last := some s.now }
  | some t =>
    let elapsed := s.now - t
    let now2 := if elapsed < API_CALL_DELAY_SECONDS
      then s.now + (API_CALL_DELAY_SECONDS - elapsed) else s.now
    { now := now2, last := some now2 }

/-- The four remote calls a section performs, in order. -/
inductive CallKind where
  | feed
  | textGen
  | imageGen
  | vision
deriving DecidableEq, Repr

/-- A remote call together with its start time. -/
structure TimedCall where
  kind : CallKind
  time : Nat
deriving DecidableEq, Repr

/-- Durations of the four remote calls of one section. -/
structure Durations where
  feed : Nat
  text : Nat
  image : Nat
  vision : Nat
deriving DecidableEq, Repr

/-- One Google call: wait for the cooldown, start (the start time is the
recorded time), then run for `dur`. -/
def stepCall (s : RL) (dur : Nat) : RL × Nat :=
  let s2 := wait_for_api_cooldown s
  ({ s2 with now := s2.now + dur }, s2.now)

/-- One section of `main` on the happy path: the news-feed fetch starts
immediately (`fetch_stories` performs no cooldown wait), then the three
generative-model calls each wait for the cooldown first.  A failing stage
only truncates the call list, which cannot affect the spacing facts below. -/
def runSection (s : RL) (d : Durations) : List TimedCall × RL :=
  let s1 : RL := { s with now := s.now + d.feed }
  let c1 := stepCall s1 d.text
  let c2 := stepCall c1.1 d.image
  let c3 := stepCall c2.1 d.vision
  ([{ kind := CallKind.feed, time := s.now }, { kind := CallKind.textGen, time := c1.2 },
    { kind := CallKind.imageGen, time := c2.2 }, { kind := CallKind.vision, time := c3.2 }],
   c3.1)

/-- The loop of `main` over the configured sections. -/
def runSections : RL → List Durations → List TimedCall × RL
  | s, [] => ([], s)
  | s, d :: ds =>
    let c := runSection s d
    let r := runSections c.2 ds
    (c.1 ++ r.1, r.2)

/-- Start times of the generative-model (Google) calls of a trace. -/
def googleTimes (tr : List TimedCall) : List Nat :=
  (tr.filter fun c => c.kind != CallKind.feed).map TimedCall.time

/-- A list of call times respecting the inter-call delay. -/
def spaced : List Nat → Prop :=
  List.Chain' (fun a b => a + API_CALL_DELAY_SECONDS ≤ b)

/-- Prepend the recorded last-call time, when present. -/
def withLast (o : Option Nat) (l : List Nat) : List Nat :=
  match o with
  | none => l
  | some t => t :: l

theorem wait_now_ge (s : RL) (t : Nat) (h : s.last = some t) (hle : t ≤ s.now) :
    t + API_CALL_DELAY_SECONDS ≤ (wait_for_api_cooldown s).now := by
  simp only [wait_for_api_cooldown, h]
  split <;> omega

theorem wait_last_eq (s : RL) :
    (wait_for_api_cooldown s).last = some (wait_for_api_cooldown s).now := by
  cases h : s.last <;> simp [wait_for_api_cooldown, h]

theorem stepCall_start (s : RL) (dur : Nat) (t : Nat) (h : s.last = some t)
    (hle : t ≤ s.now) :
    t + API_CALL_DELAY_SECONDS ≤ (stepCall s dur).2 := by
  simpa [stepCall] using wait_now_ge s t h hle

theorem stepCall_last (s : RL) (dur : Nat) :
    (stepCall s dur).1.last = some (stepCall s dur).2 ∧
    (stepCall s dur).2 ≤ (stepCall s dur).1.now := by
  refine ⟨?_, by simp [stepCall]⟩
  simpa [stepCall] using wait_last_eq s

theorem googleTimes_append (t1 t2 : List TimedCall) :
    googleTimes (t1 ++ t2) = googleTimes t1 ++ googleTimes t2 := by
  simp [googleTimes, List.filter_append]

theorem runSection_google (s : RL) (d : Durations) :
    googleTimes (runSection s d).1 =
      [(stepCall { s with now := s.now + d.feed } d.text).2,
       (stepCall (stepCall { s with now := s.now + d.feed } d.text).1 d.image).2,
       (stepCall (stepCall (stepCall { s with now := s.now + d.feed } d.text).1 d.image).1 d.vision).2] := by
  simp [runSection, googleTimes]

theorem runSections_spaced (ds : List Durations) : ∀ (s : RL),
    (∀ t, s.last = some t → t ≤ s.now) →
    spaced (withLast s.last (googleTimes (runSections s ds).1)) ∧
    (∀ t, (runSections s ds).2.last = some t → t ≤ (runSections s ds).2.now) := by
  induction ds with
  | nil =>
    intro s hinv
    refine ⟨?_, by simpa [runSections] using hinv⟩
    cases h : s.last <;> simp [runSections, googleTimes, withLast, spaced]
  | cons d ds ih =>
    intro s hinv
    set s1 : RL := { s with now := s.now + d.feed } with hs1
    have h1inv : ∀ t, s1.last = some t → t ≤ s1.now := by
      intro t ht
      have := hinv t ht
      simp [hs1]
      omega
    set c1 := stepCall s1 d.text with hc1
    set c2 := stepCall c1.1 d.image with hc2
    set c3 := stepCall c2.1 d.vision with hc3
    have l1 := stepCall_last s1 d.text
    have l2 := stepCall_last c1.1 d.image
    have l3 := stepCall_last c2.1 d.vision
    have g12 : c1.2 + API_CALL_DELAY_SECONDS ≤ c2.2 :=
      stepCall_start c1.1 d.image c1.2 l1.1 l1.2
    have g23 : c2.2 + API_CALL_DELAY_SECONDS ≤ c3.2 :=
      stepCall_start c2.1 d.vision c2.2 l2.1 l2.2
    have hrs : runSections s (d :: ds) =
        ((runSection s d).1 ++ (runSections (runSection s d).2 ds).1,
          (runSections (runSection s d).2 ds).2) := rfl
    have hsec2 : (runSection s d).2 = c3.1 := rfl
    have ihc := ih c3.1 (by intro t ht; rw [l3.1] at ht; cases ht; exact l3.2)
    have hlast3 : c3.1.last = some c3.2 := l3.1
    rw [hlast3] at ihc
    have htail : spaced (c3.2 :: googleTimes (runSections c3.1 ds).1) := ihc.1
    constructor
    · rw [hrs, googleTimes_append, hsec2, runSection_google]
      rw [← hc1, ← hc2, ← hc3]
      have hcons :
          ([c1.2, c2.2, c3.2] ++ googleTimes (runSections c3.1 ds).1) =
            c1.2 :: c2.2 :: c3.2 :: googleTimes (runSections c3.1 ds).1 := rfl
      cases h : s.last with
      | none =>
        rw [withLast, hcons]
        rw [spaced, List.chain'_cons, List.chain'_cons]
        exact ⟨g12, g23, htail⟩
      | some t0 =>
        rw [withLast, hcons]
        have g01 : t0 + API_CALL_DELAY_SECONDS ≤ c1.2 :=
          stepCall_start s1 d.text t0 (by simpa [hs1] using h) (h1inv t0 (by simpa [hs1] using h))
        rw [spaced, List.chain'_cons, List.chain'_cons, List.chain'_cons]
        exact ⟨g01, g12, g23, htail⟩
    · rw [hrs]
      exact ihc.2

/-- Claim C9 (amended): starting from the initial module state (no recorded
call), each generative-model call starts at least `API_CALL_DELAY_SECONDS`
after the recorded time of the previous generative-model call; the news-feed
fetch, by contrast, performs no cooldown wait (see the counterexample). -/
theorem google_calls_spaced (s0 : RL) (ds : List Durations) (h : s0.last = none) :
    spaced (googleTimes (runSections s0 ds).1) := by
  have hmain := runSections_spaced ds s0 (by intro t ht; rw [h] at ht; cases ht)
  have h1 := hmain.1
  rw [h] at h1
  exact h1

/-- Witness for `google_calls_spaced` on one section with unit durations. -/
theorem google_calls_spaced_witness :
    spaced (googleTimes (runSections { now := 0, last := none }
      [{ feed := 1, text := 1, image := 1, vision := 1 }]).1) :=
  google_calls_spaced { now := 0, last := none }
    [{ feed := 1, text := 1, image := 1, vision := 1 }] rfl

/-- Counterexample to claim C9 as stated: with two configured sections and
instantaneous calls, the second section's news-feed fetch starts at time 4,
which is the recorded time of the previous remote call (the vision call of
the first section) — strictly less than `API_CALL_DELAY_SECONDS` later, so
the delay is not enforced before every remote call. -/
theorem feed_not_rate_limited :
    ((runSections { now := 0, last := none }
        [{ feed := 0, text := 0, image := 0, vision := 0 },
         { feed := 0, text := 0, image := 0, vision := 0 }]).1.get? 3 =
      some { kind := CallKind.vision, time := 4 }) ∧
    ((runSections { now := 0, last := none }
        [{ feed := 0, text := 0, image := 0, vision := 0 },
         { feed := 0, text := 0, image := 0, vision := 0 }]).1.get? 4 =
      some { kind := CallKind.feed, time := 4 }) ∧
    ¬ (4 + API_CALL_DELAY_SECONDS ≤ 4) := by
  refine ⟨rfl, rfl, by decide⟩

/-! ## Python string helpers over `List Char`

`clean_json_text` (src/main.py lines 51-59) works on Python `str`; the
embedding uses `List Char`.  `pyStrip` models `str.strip()`, `pySplit`
models `str.split(sep)` for a non-empty separator (splitting at every
non-overlapping occurrence, scanning left to right). -/

/-- Model of `str.strip()` (whitespace from both ends). -/
def pyStrip (cs : List Char) : List Char :=
  (((cs.dropWhile Char.isWhitespace).reverse.dropWhile Char.isWhitespace)).reverse

/-- Worker for `pySplit`: scans the text left to right, cutting at each
occurrence of the separator `s0 :: sep`.  The fuel (initially the text
length, an upper bound on the number of steps) only makes the recursion
structural; it is never exhausted when initialised that way. -/
def splitGo (s0 : Char) (sep : List Char) : Nat → List Char → List Char → List (List Char)
  | _, [], acc => [acc.reverse]
  | 0, cs, acc => [acc.reverse ++ cs]
  | fuel + 1, c :: rest, acc =>
    if (s0 :: sep).isPrefixOf (c :: rest) then
      acc.reverse :: splitGo s0 sep fuel (rest.drop sep.length) []
    else
      splitGo s0 sep fuel rest (c :: acc)

/-- Model of Python `text.split(sep)` for non-empty `sep` (the only form the
source uses; Python rejects an empty separator). -/
def pySplit (sep cs : List Char) : List (List Char) :=
  match sep with
  | [] => [cs]
  | s0 :: sep2 => splitGo s0 sep2 cs.length cs []

/-- Occurrence test: does `sep` occur as a contiguous run in `cs`? -/
def containsSeq (sep : List Char) : List Char → Bool
  | [] => sep.isPrefixOf []
  | c :: rest => sep.isPrefixOf (c :: rest) || containsSeq sep rest

/-- Model of `text.startswith(p)`. -/
def pyStartsWith (cs p : List Char) : Bool := p.isPrefixOf cs

/-- Model of `text.endswith(p)`. -/
def pyEndsWith (cs p : List Char) : Bool := p.isSuffixOf cs

/-- The code-fence marker. -/
def fence : List Char := "\x60\x60\x60".toList

/-- The json-tagged code-fence marker. -/
def fenceJson : List Char := "\x60\x60\x60json".toList

/-- Model of `clean_json_text` (lines 51-59): strip, drop a leading fence via
`split(...)[1]`, drop a trailing fence via `split(...)[0]`, strip again.
The list index is taken with a default; under the guarding
`startswith`/`endswith` the indexed element always exists, as in Python. -/
def clean_json_text (text : List Char) : List Char :=
  let t0 := pyStrip text
  let t1 := if pyStartsWith t0 fenceJson then (pySplit fenceJson t0).getD 1 []
            else if pyStartsWith t0 fence then (pySplit fence t0).getD 1 []
            else t0
  let t2 := if pyEndsWith t1 fence then (pySplit fence t1).getD 0 []
            else t1
  pyStrip t2

/-- A text wrapped in a fenced code block, as in the claim's scenario. -/
def wrapFenced (s : List Char) : List Char :=
  fenceJson ++ '\n' :: (s ++ '\n' :: fence)

/-! ## JSON values and a model of `json.loads`

`json.loads` ignores surrounding whitespace, so the model parses the
stripped text.  Floats and `\u` escapes are not modelled (no claim involves
them); duplicate object keys are kept in order and resolved last-wins on
lookup, like Python dicts built by `json.loads`. -/

/-- JSON value as produced by `json.loads`. -/
inductive JVal where
  | null : JVal
  | bool (b : Bool) : JVal
  | num (n : Int) : JVal
  | str (s : List Char) : JVal
  | arr (elems : List JVal) : JVal
  | obj (members : List (List Char × JVal)) : JVal

/-- JSON whitespace (the four characters the grammar allows). -/
def jsonWs (c : Char) : Bool := [' ', '\t', '\n', '\r'].contains c

/-- Skip JSON whitespace. -/
def skipWs (cs : List Char) : List Char := cs.dropWhile jsonWs

/-- Escape table of JSON strings, source character paired with its meaning
(the `\u` form is not modelled). -/
def escPairs : List (Char × Char) :=
  [('"', '"'), ('\\', '\\'), ('/', '/'), ('n', '\n'), ('t', '\t'), ('r', '\r'),
    ('b', '\x08'), ('f', '\x0C')]

/-- Resolve one escape character via the table. -/
def escChar (e : Char) : Option Char :=
  (escPairs.find? fun p => p.1 == e).map Prod.snd

/-- Parse the remainder of a JSON string (after the opening quote). -/
def parseStr : List Char → Option (List Char × List Char)
  | [] => none
  | '"' :: rest => some ([], rest)
  | '\\' :: rest =>
    match rest with
    | [] => none
    | e :: rest2 =>
      match escChar e with
      | some d =>
        match parseStr rest2 with
        | some (s, r) => some (d :: s, r)
        | none => none
      | none => none
  | c :: rest =>
    match parseStr rest with
    | some (s, r) => some (c :: s, r)
    | none => none

/-- Accumulate decimal digits. -/
def digitsToNat (acc : Nat) : List Char → Nat × List Char
  | [] => (acc, [])
  | c :: rest =>
    if c.isDigit then digitsToNat (acc * 10 + (c.toNat - 48)) rest
    else (acc, c :: rest)

/-- Parse an integer literal (fractional and exponent parts unmodelled). -/
def parseNum (cs : List Char) : Option (JVal × List Char) :=
  match cs with
  | '-' :: c :: rest =>
    if c.isDigit then
      let p := digitsToNat 0 (c :: rest)
      some (JVal.num (-(p.1 : Int)), p.2)
    else none
  | c :: rest =>
    if c.isDigit then
      let p := digitsToNat 0 (c :: rest)
      some (JVal.num ((p.1 : Int)), p.2)
    else none
  | [] => none

mutual

/-- Parse one JSON value; the fuel bounds the nesting depth. -/
def parseVal : Nat → List Char → Option (JVal × List Char)
  | 0, _ => none
  | fuel + 1, cs =>
    match skipWs cs with
    | 'n' :: rest =>
      if "ull".toList.isPrefixOf rest then some (JVal.null, rest.drop 3) else none
    | 't' :: rest =>
      if "rue".toList.isPrefixOf rest then some (JVal.bool true, rest.drop 3) else none
    | 'f' :: rest =>
      if "alse".toList.isPrefixOf rest then some (JVal.bool false, rest.drop 4) else none
    | '"' :: rest =>
      match parseStr rest with
      | some (s, r) => some (JVal.str s, r)
      | none => none
    | '[' :: rest =>
      match skipWs rest with
      | ']' :: r2 => some (JVal.arr [], r2)
      | r2 =>
        match parseElems fuel r2 with
        | some (xs, r3) => some (JVal.arr xs, r3)
        | none => none
    | '\x7b' :: rest =>
      match skipWs rest with
      | '\x7d' :: r2 => some (JVal.obj [], r2)
      | r2 =>
        match parseMembers fuel r2 with
        | some (kvs, r3) => some (JVal.obj kvs, r3)
        | none => none
    | c :: rest =>
      if c == '-' || c.isDigit then parseNum (c :: rest) else none
    | [] => none

/-- Parse the comma-separated elements of a non-empty array, consuming the
closing bracket. -/
def parseElems : Nat → List Char → Option (List JVal × List Char)
  | 0, _ => none
  | fuel + 1, cs =>
    match parseVal fuel cs with
    | some (v, r) =>
      match skipWs r with
      | ',' :: r2 =>
        match parseElems fuel r2 with
        | some (xs, r3) => some (v :: xs, r3)
        | none => none
      | ']' :: r2 => some ([v], r2)
      | _ => none
    | none => none

/-- Parse the members of a non-empty object, consuming the closing brace. -/
def parseMembers : Nat → List Char → Option (List (List Char × JVal) × List Char)
  | 0, _ => none
  | fuel + 1, cs =>
    match skipWs cs with
    | '"' :: r =>
      match parseStr r with
      | some (k, r2) =>
        match skipWs r2 with
        | ':' :: r3 =>
          match parseVal fuel r3 with
          | some (v, r4) =>
            match skipWs r4 with
            | ',' :: r5 =>
              match parseMembers fuel r5 with
              | some (kvs, r6) => some ((k, v) :: kvs, r6)
              | none => none
            | '\x7d' :: r5 => some ([(k, v)], r5)
            | _ => none
          | none => none
        | _ => none
      | none => none
    | _ => none

end

/-- Model of `json.loads`: parse the stripped text; the whole text must be
consumed.  `none` models a raised `JSONDecodeError`. -/
def loads (cs : List Char) : Option JVal :=
  match parseVal ((pyStrip cs).length + 1) (pyStrip cs) with
  | some (v, []) => some v
  | _ => none

example : loads "[1, 2]".toList = some (JVal.arr [JVal.num 1, JVal.num 2]) := rfl

example : loads " \x7b\"a\": [true, null]\x7d ".toList =
    some (JVal.obj [("a".toList, JVal.arr [JVal.bool true, JVal.null])]) := rfl

example : loads "\"\x60\x60\x60\"".toList = some (JVal.str "\x60\x60\x60".toList) := rfl

example : loads "not json".toList = none := rfl

example : clean_json_text (wrapFenced "\"\x60\x60\x60\"".toList) = "\"".toList := rfl

example : clean_json_text (wrapFenced " \x7b\"a\": 1\x7d ".toList) = "\x7b\"a\": 1\x7d".toList := rfl

/-! ## Lemmas about the fence-stripping helpers -/

/-- The backtick character. -/
def tick : Char := '\x60'

/-- Two backticks (the tail of `fence`). -/
def twoTicks : List Char := [tick, tick]

/-- The tail of `fenceJson` after its head backtick. -/
def fjTail : List Char := "\x60\x60json".toList

theorem fence_eq : fence = tick :: twoTicks := rfl

theorem fenceJson_eq : fenceJson = tick :: fjTail := rfl

theorem cons_isPrefixOf_false (a b : Char) (as bs : List Char) (h : (a == b) = false) :
    (a :: as).isPrefixOf (b :: bs) = false := by
  simp [List.isPrefixOf, h]

theorem splitGo_of_not_contains (s0 : Char) (sep : List Char) :
    ∀ (cs : List Char) (fuel : Nat) (acc : List Char),
      containsSeq (s0 :: sep) cs = false →
      splitGo s0 sep fuel cs acc = [acc.reverse ++ cs] := by
  intro cs
  induction cs with
  | nil =>
    intro fuel acc _
    cases fuel <;> simp [splitGo]
  | cons c rest ih =>
    intro fuel acc h
    rw [containsSeq, Bool.or_eq_false_iff] at h
    cases fuel with
    | zero => simp [splitGo]
    | succ n =>
      rw [splitGo, if_neg (by simp [h.1]), ih n (c :: acc) h.2]
      simp

theorem splitGo_cons_sep (s0 : Char) (sep : List Char) (n : Nat) (rest acc : List Char) :
    splitGo s0 sep (n + 1) ((s0 :: sep) ++ rest) acc =
      acc.reverse :: splitGo s0 sep n rest [] := by
  have hpre : (s0 :: sep).isPrefixOf (s0 :: (sep ++ rest)) = true := by
    rw [← List.cons_append]
    exact List.isPrefixOf_iff_prefix.mpr (List.prefix_append _ _)
  show splitGo s0 sep (n + 1) (s0 :: (sep ++ rest)) acc = _
  rw [splitGo, if_pos hpre, List.drop_left]

theorem isPrefixOf_congr (p xs ys zs : List Char)
    (h : ys.take (p.length - xs.length) = zs.take (p.length - xs.length)) :
    p.isPrefixOf (xs ++ ys) = p.isPrefixOf (xs ++ zs) := by
  have htake : (xs ++ ys).take p.length = (xs ++ zs).take p.length := by
    rw [List.take_append_eq_append_take, List.take_append_eq_append_take, h]
  cases hr : p.isPrefixOf (xs ++ zs) with
  | true =>
    have h1 : p = (xs ++ zs).take p.length :=
      List.prefix_iff_eq_take.mp ( List.isPrefixOf_iff_prefix.mp hr)
    rw [← htake] at h1
    exact List.isPrefixOf_iff_prefix.mpr (List.prefix_iff_eq_take.mpr h1)
  | false =>
    cases hl : p.isPrefixOf (xs ++ ys) with
    | false => rfl
    | true =>
      exfalso
      have h1 : p = (xs ++ ys).take p.length :=
        List.prefix_iff_eq_take.mp ( List.isPrefixOf_iff_prefix.mp hl)
      rw [htake] at h1
      have h2 := List.isPrefixOf_iff_prefix.mpr (List.prefix_iff_eq_take.mpr h1)
      rw [hr] at h2
      cases h2

theorem fence_take_eq_twoTicks_take (k : Nat) (hk : k ≤ 2) :
    fence.take k = twoTicks.take k := by
  interval_cases k <;> rfl

theorem fence_isPrefixOf_append_newline (xs ys : List Char)
    (h : fence.isPrefixOf (xs ++ '\n' :: ys) = true) :
    fence.isPrefixOf xs = true := by
  have htake : fence = (xs ++ '\n' :: ys).take 3 := by
    have h1 := List.prefix_iff_eq_take.mp ( List.isPrefixOf_iff_prefix.mp h)
    simpa using h1
  by_cases hlen : 3 ≤ xs.length
  · rw [List.take_append_of_le_length hlen] at htake
    exact List.isPrefixOf_iff_prefix.mpr
      (List.prefix_iff_eq_take.mpr (by simpa using htake))
  · exfalso
    have h3 : 3 - xs.length = (2 - xs.length) + 1 := by omega
    rw [List.take_append_eq_append_take, h3, List.take_succ_cons] at htake
    have hmem : '\n' ∈ fence := by
      rw [htake]
      exact List.mem_append_right _ (List.mem_cons_self _ _)
    exact absurd hmem (by decide)

theorem containsSeq_fence_pad_twoTicks (s : List Char)
    (h : containsSeq fence s = false) :
    containsSeq fence (s ++ '\n' :: twoTicks) = false := by
  induction s with
  | nil => decide
  | cons c s2 ih =>
    rw [containsSeq, Bool.or_eq_false_iff] at h
    show containsSeq fence (c :: (s2 ++ '\n' :: twoTicks)) = false
    rw [containsSeq, Bool.or_eq_false_iff]
    refine ⟨?_, ih h.2⟩
    cases hp : fence.isPrefixOf (c :: (s2 ++ '\n' :: twoTicks)) with
    | false => rfl
    | true =>
      exfalso
      have hp2 : fence.isPrefixOf ((c :: s2) ++ '\n' :: twoTicks) = true := by
        rw [List.cons_append]
        exact hp
      have h1 := fence_isPrefixOf_append_newline (c :: s2) twoTicks hp2
      rw [h.1] at h1
      cases h1

theorem containsSeq_fenceJson_pad (s : List Char)
    (h : containsSeq fence s = false) :
    containsSeq fenceJson (s ++ '\n' :: fence) = false := by
  induction s with
  | nil => decide
  | cons c s2 ih =>
    rw [containsSeq, Bool.or_eq_false_iff] at h
    show containsSeq fenceJson (c :: (s2 ++ '\n' :: fence)) = false
    rw [containsSeq, Bool.or_eq_false_iff]
    refine ⟨?_, ih h.2⟩
    cases hp : fenceJson.isPrefixOf (c :: (s2 ++ '\n' :: fence)) with
    | false => rfl
    | true =>
      exfalso
      have hfj : fence <+: fenceJson :=
        List.isPrefixOf_iff_prefix.mp (by rfl)
      have hf : fence.isPrefixOf ((c :: s2) ++ '\n' :: fence) = true := by
        rw [List.cons_append]
        exact List.isPrefixOf_iff_prefix.mpr
          (hfj.trans ( List.isPrefixOf_iff_prefix.mp hp))
      have h1 := fence_isPrefixOf_append_newline (c :: s2) fence hf
      rw [h.1] at h1
      cases h1

theorem splitGo_pre_fence :
    ∀ (pre : List Char) (fuel : Nat) (acc : List Char),
      pre.length + 3 ≤ fuel →
      containsSeq fence (pre ++ twoTicks) = false →
      splitGo tick twoTicks fuel (pre ++ fence) acc = [acc.reverse ++ pre, []] := by
  intro pre
  induction pre with
  | nil =>
    intro fuel acc hf _
    obtain ⟨f, rfl⟩ : ∃ f, fuel = f + 1 := ⟨fuel - 1, by omega⟩
    rw [show ([] : List Char) ++ fence = (tick :: twoTicks) ++ ([] : List Char) from
      by simp [fence_eq]]
    rw [splitGo_cons_sep]
    simp [splitGo]
  | cons c pre2 ih =>
    intro fuel acc hf h
    obtain ⟨f, rfl⟩ : ∃ f, fuel = f + 1 := ⟨fuel - 1, by omega⟩
    have h2 : containsSeq fence (c :: (pre2 ++ twoTicks)) = false := by
      rw [← List.cons_append]
      exact h
    rw [containsSeq, Bool.or_eq_false_iff] at h2
    have hnp : fence.isPrefixOf (c :: (pre2 ++ fence)) = false := by
      have hcongr := isPrefixOf_congr fence (c :: pre2) fence twoTicks
        (fence_take_eq_twoTicks_take _
          (by rw [show fence.length = 3 from rfl]; simp))
      rw [List.cons_append, List.cons_append] at hcongr
      rw [hcongr]
      exact h2.1
    show splitGo tick twoTicks (f + 1) (c :: (pre2 ++ fence)) acc = _
    rw [splitGo, if_neg (by rw [← fence_eq]; simp [hnp]),
      ih f (c :: acc) (by simp at hf; omega) h2.2]
    simp

theorem dropWhile_eq_self_of_head (p : Char → Bool) (l : List Char) (c : Char)
    (hc : l.head? = some c) (hp : p c = false) : l.dropWhile p = l := by
  cases l with
  | nil => simp at hc
  | cons a rest =>
    simp at hc
    subst hc
    simp [List.dropWhile_cons, hp]

theorem head_dropWhile_false (p : Char → Bool) (l : List Char) (c : Char)
    (h : (l.dropWhile p).head? = some c) : p c = false := by
  induction l with
  | nil => simp [List.dropWhile] at h
  | cons a rest ih =>
    rw [List.dropWhile_cons] at h
    by_cases hp : p a = true
    · rw [if_pos hp] at h
      exact ih h
    · rw [if_neg hp] at h
      simp at h
      subst h
      simpa using hp

theorem pyStrip_eq_self (l : List Char) (c d : Char)
    (hh : l.head? = some c) (hc : c.isWhitespace = false)
    (hl : l.getLast? = some d) (hd : d.isWhitespace = false) :
    pyStrip l = l := by
  rw [pyStrip]
  rw [dropWhile_eq_self_of_head _ l c hh hc]
  rw [dropWhile_eq_self_of_head _ l.reverse d (by rw [List.head?_reverse]; exact hl) hd]
  exact List.reverse_reverse l

theorem pyStrip_cons_of_ws (c : Char) (l : List Char) (hc : c.isWhitespace = true) :
    pyStrip (c :: l) = pyStrip l := by
  simp [pyStrip, List.dropWhile_cons, hc]

theorem pyStrip_append_of_ws (l : List Char) (c : Char) (hc : c.isWhitespace = true) :
    pyStrip (l ++ [c]) = pyStrip l := by
  rw [pyStrip, pyStrip, List.dropWhile_append]
  by_cases he : (l.dropWhile Char.isWhitespace).isEmpty = true
  · rw [if_pos he]
    rw [List.isEmpty_iff.mp he]
    simp [List.dropWhile_cons, hc]
  · rw [if_neg he]
    rw [List.reverse_append]
    simp [List.dropWhile_cons, hc]

theorem pyStrip_idem (l : List Char) : pyStrip (pyStrip l) = pyStrip l := by
  cases hh : (pyStrip l).head? with
  | none =>
    have hnil : pyStrip l = [] := by
      cases hps : pyStrip l with
      | nil => rfl
      | cons a rest => rw [hps] at hh; simp at hh
    rw [hnil]
    rfl
  | some c =>
    have hne : pyStrip l ≠ [] := by
      intro he
      rw [he] at hh
      simp at hh
    have hd := List.getLast?_eq_getLast (pyStrip l) hne
    have hc : c.isWhitespace = false := by
      have hh2 := hh
      rw [pyStrip, List.head?_reverse] at hh2
      set R := (l.dropWhile Char.isWhitespace).reverse.dropWhile Char.isWhitespace with hR
      have hRne : R ≠ [] := by
        intro h0
        rw [h0] at hh2
        simp at hh2
      obtain ⟨t, ht⟩ := List.dropWhile_suffix
        (l := (l.dropWhile Char.isWhitespace).reverse) Char.isWhitespace
      have hgl : (l.dropWhile Char.isWhitespace).reverse.getLast? = R.getLast? := by
        rw [← ht]
        exact List.getLast?_append_of_ne_nil t hRne
      rw [List.getLast?_reverse] at hgl
      rw [hh2] at hgl
      exact head_dropWhile_false _ _ _ hgl
    have hds : ((pyStrip l).getLast hne).isWhitespace = false := by
      have h3 : (pyStrip l).getLast? =
          ((l.dropWhile Char.isWhitespace).reverse.dropWhile Char.isWhitespace).head? :=
        List.getLast?_reverse _
      have h4 : ((l.dropWhile Char.isWhitespace).reverse.dropWhile Char.isWhitespace).head? =
          some ((pyStrip l).getLast hne) := by
        rw [← h3]
        exact hd
      exact head_dropWhile_false _ _ _ h4
    exact pyStrip_eq_self (pyStrip l) c _ hh hc hd hds

theorem fenceJson_not_prefix_newline (l : List Char) :
    fenceJson.isPrefixOf ('\n' :: l) = false := by
  rw [fenceJson_eq]
  exact cons_isPrefixOf_false tick '\n' fjTail l (by decide)

theorem fence_not_prefix_newline (l : List Char) :
    fence.isPrefixOf ('\n' :: l) = false := by
  rw [fence_eq]
  exact cons_isPrefixOf_false tick '\n' twoTicks l (by decide)

theorem containsSeq_fenceJson_rest (s : List Char) (h : containsSeq fence s = false) :
    containsSeq fenceJson ('\n' :: (s ++ '\n' :: fence)) = false := by
  rw [containsSeq, Bool.or_eq_false_iff]
  exact ⟨fenceJson_not_prefix_newline _, containsSeq_fenceJson_pad s h⟩

/-- Central lemma for claim C6: on a text with no triple-backtick run,
`clean_json_text` undoes the fenced wrapping up to stripping. -/
theorem clean_json_text_wrap (s : List Char) (h : containsSeq fence s = false) :
    clean_json_text (wrapFenced s) = pyStrip s := by
  have hassoc : wrapFenced s = (fenceJson ++ '\n' :: (s ++ ['\n'])) ++ fence := by
    simp [wrapFenced]
  have hstrip : pyStrip (wrapFenced s) = wrapFenced s := by
    apply pyStrip_eq_self _ tick tick
    · rw [show wrapFenced s = fenceJson ++ '\n' :: (s ++ '\n' :: fence) from rfl,
        fenceJson_eq]
      rfl
    · decide
    · rw [hassoc]
      rw [List.getLast?_append_of_ne_nil _ (by decide : fence ≠ [])]
      decide
    · decide
  have hguard1 : pyStartsWith (wrapFenced s) fenceJson = true := by
    rw [pyStartsWith, show wrapFenced s = fenceJson ++ '\n' :: (s ++ '\n' :: fence) from rfl]
    exact List.isPrefixOf_iff_prefix.mpr (List.prefix_append _ _)
  have hsplit1 : pySplit fenceJson (wrapFenced s) = [[], '\n' :: (s ++ '\n' :: fence)] := by
    show splitGo tick fjTail (wrapFenced s).length (wrapFenced s) [] = _
    have hlen : (wrapFenced s).length = (('\n' :: (s ++ '\n' :: fence)).length + 6) + 1 := by
      simp [wrapFenced, fenceJson, fence]
    rw [hlen]
    rw [show wrapFenced s = (tick :: fjTail) ++ ('\n' :: (s ++ '\n' :: fence)) from rfl]
    rw [splitGo_cons_sep]
    rw [splitGo_of_not_contains tick fjTail _ _ []
      (containsSeq_fenceJson_rest s h)]
    simp
  have hguard3 : pyEndsWith ('\n' :: (s ++ '\n' :: fence)) fence = true := by
    rw [pyEndsWith]
    have : '\n' :: (s ++ '\n' :: fence) = ('\n' :: (s ++ ['\n'])) ++ fence := by
      simp
    rw [this]
    exact List.isSuffixOf_iff_suffix.mpr (List.suffix_append _ _)
  have hpre2 : containsSeq fence (('\n' :: (s ++ ['\n'])) ++ twoTicks) = false := by
    have hsh : ('\n' :: (s ++ ['\n'])) ++ twoTicks = '\n' :: (s ++ '\n' :: twoTicks) := by
      simp
    rw [hsh, containsSeq, Bool.or_eq_false_iff]
    exact ⟨fence_not_prefix_newline _, containsSeq_fence_pad_twoTicks s h⟩
  have hsplit2 : pySplit fence ('\n' :: (s ++ '\n' :: fence)) =
      ['\n' :: (s ++ ['\n']), []] := by
    show splitGo tick twoTicks ('\n' :: (s ++ '\n' :: fence)).length
      ('\n' :: (s ++ '\n' :: fence)) [] = _
    have hsh : '\n' :: (s ++ '\n' :: fence) = ('\n' :: (s ++ ['\n'])) ++ fence := by
      simp
    have hlen : ('\n' :: (s ++ '\n' :: fence)).length =
        ('\n' :: (s ++ ['\n'])).length + 3 := by
      simp [fence]
    rw [hlen, hsh]
    rw [splitGo_pre_fence ('\n' :: (s ++ ['\n'])) _ [] (le_refl _) hpre2]
    simp
  rw [clean_json_text]
  rw [hstrip]
  rw [if_pos hguard1]
  rw [hsplit1]
  show pyStrip (if pyEndsWith ('\n' :: (s ++ '\n' :: fence)) fence = true
    then (pySplit fence ('\n' :: (s ++ '\n' :: fence))).getD 0 []
    else '\n' :: (s ++ '\n' :: fence)) = pyStrip s
  rw [if_pos hguard3]
  rw [hsplit2]
  show pyStrip ('\n' :: (s ++ ['\n'])) = pyStrip s
  rw [pyStrip_cons_of_ws _ _ (by decide), pyStrip_append_of_ws _ _ (by decide)]

/-- Claim C6 (amended): for every valid JSON text that contains no
triple-backtick run, `clean_json_text` applied to the text wrapped in a
fenced code block yields text parsing to the same JSON value as the
unwrapped text.  (For texts containing a triple backtick the original claim
fails, see `clean_json_fence_counterexample`.) -/
theorem clean_json_preserves_value (s : List Char)
    (_hv : (loads s).isSome = true) (hf : containsSeq fence s = false) :
    loads (clean_json_text (wrapFenced s)) = loads s := by
  rw [clean_json_text_wrap s hf]
  simp only [loads, pyStrip_idem]

/-- Witness for `clean_json_preserves_value` on the JSON text `[1, 2]`. -/
theorem clean_json_preserves_value_witness :
    (loads "[1, 2]".toList).isSome = true ∧
    containsSeq fence "[1, 2]".toList = false ∧
    loads (clean_json_text (wrapFenced "[1, 2]".toList)) = loads "[1, 2]".toList :=
  ⟨rfl, rfl, clean_json_preserves_value "[1, 2]".toList rfl rfl⟩

/-- Counterexample to claim C6 as stated: the valid JSON text `"​..."`
consisting of a string of three backticks is destroyed by the unwrapping
(Python `split` cuts at the inner backtick run as well), leaving the
unparseable text `"`, so the cleaned text does not parse to the same value. -/
theorem clean_json_fence_counterexample :
    (loads "\"\x60\x60\x60\"".toList).isSome = true ∧
    loads (clean_json_text (wrapFenced "\"\x60\x60\x60\"".toList)) = none ∧
    loads (clean_json_text (wrapFenced "\"\x60\x60\x60\"".toList)) ≠
      loads "\"\x60\x60\x60\"".toList := by
  refine ⟨rfl, rfl, ?_⟩
  intro hcontra
  rw [show loads (clean_json_text (wrapFenced "\"\x60\x60\x60\"".toList)) = none from rfl]
    at hcontra
  rw [show loads "\"\x60\x60\x60\"".toList =
    some (JVal.str "\x60\x60\x60".toList) from rfl] at hcontra
  exact Option.noConfusion hcontra

/-! ## Concept stage and orchestrator (src/main.py lines 96-145, 381-397) -/

/-- Key `story_elements`. -/
def keyStoryElements : List Char := "story_elements".toList

/-- Key `locations`. -/
def keyLocations : List Char := "locations".toList

/-- Key `id`. -/
def keyId : List Char := "id".toList

/-- Key `visual_cue`. -/
def keyVisualCue : List Char := "visual_cue".toList

/-- Key `assigned_zone`. -/
def keyAssignedZone : List Char := "assigned_zone".toList

/-- Python dict lookup with the duplicate-key semantics of `json.loads`
(the last occurrence wins); `none` models a raised `KeyError`. -/
def dictGet (kvs : List (List Char × JVal)) (k : List Char) : Option JVal :=
  match kvs.reverse.find? (fun kv => kv.1 == k) with
  | some kv => some kv.2
  | none => none

/-- Python subscript `d[key]` with a string key: raises (`none`) unless `d`
is a dict containing the key. -/
def jGet : JVal → List Char → Option JVal
  | JVal.obj kvs, k => dictGet kvs k
  | _, _ => none

/-- Python truthiness of a JSON value, as tested by `if not concept`. -/
def jtruthy : JVal → Bool
  | JVal.null => false
  | JVal.bool b => b
  | JVal.num n => n != 0
  | JVal.str s => !s.isEmpty
  | JVal.arr xs => !xs.isEmpty
  | JVal.obj kvs => !kvs.isEmpty

/-- Model of `generate_memory_palace_concept` (lines 96-145): the response
text of the remote call is the input; the body tries
`json.loads(clean_json_text(response.text))` and any exception (a parse
failure) is caught and yields `None`.  No field of the parsed value is
inspected before returning it. -/
def generate_memory_palace_concept (responseText : List Char) : Option JVal :=
  loads (clean_json_text responseText)

/-- Outcome of the concept-handling step of `main` for one section. -/
inductive ConceptOutcome where
  | skipped : ConceptOutcome
  | raised : ConceptOutcome
  | proceeded : JVal → ConceptOutcome

/-- Model of `main` lines 390-397 up to the join: `if not concept: continue`
(both `None` and falsy values skip), then `concept['story_elements']` is
subscripted outside any try, so a missing key raises out of `main`. -/
def handleConcept (responseText : List Char) : ConceptOutcome :=
  match generate_memory_palace_concept responseText with
  | none => ConceptOutcome.skipped
  | some c =>
    if jtruthy c = false then ConceptOutcome.skipped
    else
      match jGet c keyStoryElements with
      | none => ConceptOutcome.raised
      | some elems => ConceptOutcome.proceeded elems

/-- Claim C7 (amended): when the text-model response fails to parse, the
concept generator returns the sentinel `None` and the orchestrator skips the
section; the stage is invoked exactly once per section (no retry) by the
structure of `handleConcept`.  A parseable response with a missing
`story_elements` field is, however, returned as-is and makes the
orchestrator raise — see `concept_missing_field_raises`. -/
theorem parse_failure_skips (responseText : List Char)
    (h : loads (clean_json_text responseText) = none) :
    generate_memory_palace_concept responseText = none ∧
    handleConcept responseText = ConceptOutcome.skipped := by
  refine ⟨h, ?_⟩
  simp only [handleConcept, generate_memory_palace_concept, h]

/-- Witness for `parse_failure_skips` on an unparseable response. -/
theorem parse_failure_skips_witness :
    generate_memory_palace_concept "not json".toList = none ∧
    handleConcept "not json".toList = ConceptOutcome.skipped :=
  parse_failure_skips "not json".toList rfl

/-- Counterexample to claim C7 as stated: a response that parses to the
truthy dict `{"setting_description": "x"}` but lacks `story_elements` makes
the generator return the dict (not `None`), and the orchestrator then raises
at `concept['story_elements']` instead of skipping the section. -/
theorem concept_missing_field_raises :
    (generate_memory_palace_concept
      "\x7b\"setting_description\": \"x\"\x7d".toList).isSome = true ∧
    handleConcept "\x7b\"setting_description\": \"x\"\x7d".toList =
      ConceptOutcome.raised :=
  ⟨rfl, rfl⟩

/-! ## Mnemonic locator (`find_coordinates`, src/main.py lines 176-208) -/

/-- Python `str()` of a JSON value, as interpolated into the request lines
(container rendering is abbreviated; no claim depends on it). -/
def jvalText : JVal → List Char
  | JVal.null => "None".toList
  | JVal.bool true => "True".toList
  | JVal.bool false => "False".toList
  | JVal.num n => (toString n).toList
  | JVal.str s => s
  | JVal.arr _ => "[...]".toList
  | JVal.obj _ => "\x7b...\x7d".toList

/-- The request line built for one element:
`f"ID {elem['id']}: {elem['visual_cue']} (Look in: {elem['assigned_zone']})"`;
`none` models the `KeyError` raised when a key is missing. -/
def locatorItem (e : JVal) : Option (List Char) :=
  match jGet e keyId, jGet e keyVisualCue, jGet e keyAssignedZone with
  | some i, some vc, some az =>
    some ("ID ".toList ++ jvalText i ++ ": ".toList ++ jvalText vc ++
      " (Look in: ".toList ++ jvalText az ++ ")".toList)
  | _, _, _ => none

/-- The `items_to_find` loop (lines 179-181).  It runs before the `try`
block, so the first malformed element raises out of the stage. -/
def buildLocatorItems (elements : List JVal) : Option (List (List Char)) :=
  elements.mapM locatorItem

/-- Model of `find_coordinates`: result `none` models an uncaught exception
escaping the stage; `some v` is the returned value.  The response is `none`
when the remote call itself raises (caught, yielding `[]`); a parse failure
or missing `locations` key inside the `try` is caught and yields `[]`;
otherwise `data['locations']` is returned as-is. -/
def find_coordinates (story_elements : List JVal)
    (responseText : Option (List Char)) : Option JVal :=
  match buildLocatorItems story_elements with
  | none => none
  | some _ =>
    match responseText with
    | none => some (JVal.arr [])
    | some txt =>
      match loads (clean_json_text txt) with
      | none => some (JVal.arr [])
      | some d =>
        match jGet d keyLocations with
        | none => some (JVal.arr [])
        | some v => some v

/-- Claim C8 (amended): when every story element is well-formed, a parse
failure of the vision response yields the empty coordinate list `[]` without
failing the section; a story element lacking an id, however, raises a
`KeyError` before the guarded region and the stage fails — see
`locator_missing_id_raises`. -/
theorem locator_parse_failure_empty (story_elements : List JVal) (txt : List Char)
    (hitems : (buildLocatorItems story_elements).isSome = true)
    (hparse : loads (clean_json_text txt) = none) :
    find_coordinates story_elements (some txt) = some (JVal.arr []) := by
  obtain ⟨items, hb⟩ := Option.isSome_iff_exists.mp hitems
  simp only [find_coordinates, hb, hparse]

/-- Well-formed element used by the locator witness. -/
def goodElem : JVal :=
  JVal.obj [(keyId, JVal.num 1), (keyVisualCue, JVal.str "bull".toList),
    (keyAssignedZone, JVal.str "Foreground Left".toList)]

/-- Witness for `locator_parse_failure_empty` on an unparseable response. -/
theorem locator_parse_failure_empty_witness :
    find_coordinates [goodElem] (some "oops".toList) = some (JVal.arr []) :=
  locator_parse_failure_empty [goodElem] "oops".toList rfl rfl

/-- Counterexample to claim C8 as stated: an element lacking an id is not
skipped; building the request raises and the stage fails (even though the
vision response itself is perfectly valid). -/
theorem locator_missing_id_raises :
    find_coordinates
      [JVal.obj [(keyVisualCue, JVal.str "bull".toList),
        (keyAssignedZone, JVal.str "Foreground Left".toList)]]
      (some "\x7b\"locations\": []\x7d".toList) = none := rfl
